import Mathlib

set_option maxHeartbeats 1000000

namespace Goja

/-- A breakpoint location; value equality on the (Filename, Line) pair. -/
structure Breakpoint where
  Filename : String
  Line : Int
deriving DecidableEq, Repr

/-- Go slice semantics for the breakpoint registry: a Go slice is either nil
(`none`) or a possibly empty list (`some l`). `Debugger.Breakpoints` compares
the slice against nil, while `len` and `range` treat nil and empty alike, so
the model keeps the nil/empty distinction. -/
abbrev GoSlice (α : Type) := Option (List α)

/-- Elements visited by a Go `range` loop over a slice (nil visits nothing). -/
def goElems {α : Type} : GoSlice α → List α
  | none => []
  | some l => l

/-- Go `len` of a slice; `len(nil) = 0`. -/
def goLen {α : Type} (s : GoSlice α) : Nat :=
  (goElems s).length

/-- A source position, as produced by `src.Position(prg.sourceOffset(pc))`. -/
structure Pos where
  filename : String
  line : Int
deriving DecidableEq, Repr

/-- Modelled from the spec: the instruction set and its dispatch loop
(`executeOneInstruction`) are external collaborators, out of the debugger
core scope, so instructions are modelled by their program-counter effect
only, plus the debugger pause-marker instruction the stepping commands test
for. -/
inductive Instr where
  | debuggerStmt : Instr
  | basic : Instr
  | jmp : Nat → Instr
deriving DecidableEq, Repr

/-- A compiled program: its instruction list plus the offset-to-position
table. Modelled from the spec: the table (`positionAt(offset)`) is external
program metadata; like the underlying `sourceOffset` search it is total in
the offset, so it is modelled as a total map. -/
structure Program where
  code : List Instr
  posAt : Nat → Pos

/-- Interpreter values (the `Value` interface); `unresolved` models the
`valueUnresolved` placeholder returned by failed variable resolution. -/
inductive Value where
  | undefined : Value
  | null : Value
  | num : Int → Value
  | str : String → Value
  | obj : Nat → Value
  | unresolved : String → Value
deriving DecidableEq, Repr

/-- Modelled from the spec: the execution context saved by `vm.pushCtx()` and
restored by `vm.popCtx()` around nested evaluation — the active program,
program counter, stack base, argument count and result slot. -/
structure EvalCtx where
  prg : Program
  pc : Nat
  sb : Int
  args : Nat
  result : Option Value

/-- The slice of VM state the debugger reads and writes.  A Go `Value` slot
that may hold nil is an `Option Value`; the stack is total in the index (the
backing slice is at least `sp` long). -/
structure VM where
  prg : Program
  pc : Nat
  stack : Nat → Option Value
  sp : Nat
  sb : Int
  args : Nat
  result : Option Value
  halt : Bool
  stash : List (List (String × Value))
  globalObject : Value
  globalProps : String → Option Value
  ctxStack : List EvalCtx

/-- The `Debugger` struct.  `chClosed` models the state of the one-shot
session channel `ch` (modelled from the spec, which calls it the session
gate: open while awaiting release, released once closed). -/
structure Debugger where
  vm : VM
  lastDebuggerCmdAndArgs : List String
  debuggerExec : Bool
  currentLine : Int
  lastLines : List Int
  breakpoints : GoSlice Breakpoint
  chClosed : Bool

/-- A command result: optional value, optional error (errors as messages). -/
structure Result where
  value : Option Value
  err : Option String
deriving DecidableEq, Repr

/-- `Debugger.SetBreakpoint`: scans the registry for a value-equal entry,
returns the error "breakpoint exists" when found, otherwise appends.  The
returned pair is (error, updated registry field). -/
def SetBreakpoint (bps : GoSlice Breakpoint) (fileName : String) (line : Int) :
    Option String × GoSlice Breakpoint :=
  let b : Breakpoint := ⟨fileName, line⟩
  if b ∈ goElems bps then (some "breakpoint exists", bps)
  else (none, some (goElems bps ++ [b]))

/-- The removal loop in `Debugger.ClearBreakpoint`
(`append(bps[:idx], bps[idx+1:]...)` at the first matching index);
`none` when no entry matches. -/
def removeFirst : List Breakpoint → Breakpoint → Option (List Breakpoint)
  | [], _ => none
  | x :: xs, b =>
    if x = b then some xs
    else
      match removeFirst xs b with
      | some rest => some (x :: rest)
      | none => none

/-- `Debugger.ClearBreakpoint`: errors on a registry of length zero, removes
the first matching entry (the result slice is non-nil even when it becomes
empty), errors with "cannot set breakpoints" when no entry matches. -/
def ClearBreakpoint (bps : GoSlice Breakpoint) (fileName : String) (line : Int) :
    Option String × GoSlice Breakpoint :=
  if goLen bps = 0 then (some "no breakpoints set", bps)
  else
    match removeFirst (goElems bps) ⟨fileName, line⟩ with
    | some rest => (none, some rest)
    | none => (some "cannot set breakpoints", bps)

/-- `Debugger.Breakpoints`: errors exactly when the registry slice is Go-nil
(the source tests `dbg.breakpoints == nil`, not its length). -/
def Breakpoints (bps : GoSlice Breakpoint) : Except String (List Breakpoint) :=
  match bps with
  | none => Except.error "no breakpoints"
  | some l => Except.ok l

/-- `Debugger.Line()`: source line at the current program counter. -/
def Debugger.Line (d : Debugger) : Int :=
  (d.vm.prg.posAt d.vm.pc).line

/-- `Debugger.Filename()`: source file at the current program counter. -/
def Debugger.Filename (d : Debugger) : String :=
  (d.vm.prg.posAt d.vm.pc).filename

/-- `Debugger.isSafeToRun()`: the program counter is inside the code. -/
def Debugger.isSafeToRun (d : Debugger) : Bool :=
  decide (d.vm.pc < d.vm.prg.code.length)

/-- `Debugger.isDebuggerStatement()`: the instruction at the program counter
is the pause marker (indexed only under the `isSafeToRun` guard in the
source; the model is total via an optional lookup). -/
def Debugger.isDebuggerStatement (d : Debugger) : Bool :=
  decide (d.vm.prg.code.get? d.vm.pc = some Instr.debuggerStmt)

/-- `Debugger.isBreakpoint()`: the current (file, line) is registered. -/
def Debugger.isBreakpoint (d : Debugger) : Bool :=
  decide ((⟨d.Filename, d.Line⟩ : Breakpoint) ∈ goElems d.breakpoints)

/-- `Debugger.updateCurrentLine()`. -/
def Debugger.updateCurrentLine (d : Debugger) : Debugger :=
  { d with currentLine := d.Line }

/-- `Debugger.updateLastLine(n)`: appends to the de-duplicated line history
when the history is nonempty and its last entry differs from `n`. -/
def Debugger.updateLastLine (d : Debugger) (lineNumber : Int) : Debugger :=
  match d.lastLines.getLast? with
  | some last =>
      if last ≠ lineNumber then { d with lastLines := d.lastLines ++ [lineNumber] }
      else d
  | none => d

/-- Modelled from the spec: effect of executing one instruction (its `exec`
method); only the program-counter movement is modelled. -/
def instrExec : Instr → VM → VM
  | Instr.debuggerStmt, vm => { vm with pc := vm.pc + 1 }
  | Instr.basic, vm => { vm with pc := vm.pc + 1 }
  | Instr.jmp t, vm => { vm with pc := t }

/-- `dbg.vm.prg.code[dbg.vm.pc].exec(dbg.vm)`; total here, but only invoked
under the `isSafeToRun` guard, mirroring the source. -/
def stepVM (d : Debugger) : Debugger :=
  match d.vm.prg.code.get? d.vm.pc with
  | some i => { d with vm := instrExec i d.vm }
  | none => d

/-- The continue command (no fields). -/
structure ContinueCommand

/-- The loop of `ContinueCommand.execute`: run instructions while the pc is
in range and not at a pause marker; on a registered breakpoint record lines
and return.  `fuel` bounds the modelled number of iterations (the source
loop is unbounded; an infinite loop is an accepted limitation of the
design). -/
def continueLoop (lastLine : Int) : Nat → Debugger → Result × Debugger
  | 0, d => (⟨none, none⟩, d)
  | fuel + 1, d =>
    if d.isSafeToRun && !d.isDebuggerStatement then
      if d.isBreakpoint then
        (⟨none, none⟩, (d.updateCurrentLine).updateLastLine lastLine)
      else
        continueLoop lastLine fuel ((stepVM d).updateCurrentLine)
    else
      (⟨none, none⟩, d.updateLastLine lastLine)

/-- `ContinueCommand.execute`. -/
def ContinueCommand.execute (_c : ContinueCommand) (fuel : Nat) (d : Debugger) :
    Result × Debugger :=
  let lastLine := d.Line
  continueLoop lastLine fuel d.updateCurrentLine

/-- `Debugger.Continue`: runs the command body, then the deferred
`close(dbg.ch)`.  Modelled from the spec: the session gate is the one-shot
channel `ch`; Go `close` of an already-closed channel is a runtime panic
("close of closed channel"), modelled as `Except.error`. -/
def Debugger.Continue (fuel : Nat) (d : Debugger) :
    Except String (Result × Debugger) :=
  let rd := ContinueCommand.execute ⟨⟩ fuel d
  if rd.2.chClosed then Except.error "close of closed channel"
  else Except.ok (rd.1, { rd.2 with chClosed := true })

/-- The step-in command (no fields). -/
structure StepInCommand

/-- The step-out command (no fields). -/
structure StepOutCommand

/-- `StepInCommand.execute`: always the unimplemented error, no mutation. -/
def StepInCommand.execute (_c : StepInCommand) (d : Debugger) : Result × Debugger :=
  (⟨none, some "not implemented yet"⟩, d)

/-- `StepOutCommand.execute`: always the unimplemented error, no mutation. -/
def StepOutCommand.execute (_c : StepOutCommand) (d : Debugger) : Result × Debugger :=
  (⟨none, some "not implemented yet"⟩, d)

/-- `stash.getByName` walked along the `outer` chain: the first tier of
`Debugger.getValue`. -/
def stashLookup : List (List (String × Value)) → String → Option Value
  | [], _ => none
  | s :: outer, name =>
    match s.find? (fun p => p.1 == name) with
    | some p => some p.2
    | none => stashLookup outer name

/-- `Debugger.getValue`: three-tier resolution — lexical scope chain, then
the frame receiver at `stack[sb]` (regardless of the name), then the global
object's properties; otherwise the `valueUnresolved` placeholder.  Error
messages kept verbatim from the source. -/
def Debugger.getValue (d : Debugger) (varName : String) :
    Option Value × Option String :=
  match stashLookup d.vm.stash varName with
  | some v => (some v, none)
  | none =>
    match (if 0 ≤ d.vm.sb then d.vm.stack d.vm.sb.toNat else none) with
    | some v => (some v, some "variable doesn\x27t exist in the global scope")
    | none =>
      match d.vm.globalProps varName with
      | some v => (some v, some "variable doesn\x27t exist in the local scope")
      | none => (some (Value.unresolved varName), some "cannot resolve variable")

/-- Modelled from the spec: outcome of the external compiler on an eval
fragment — a program, a compiler syntax-error panic, or another panic;
panics are converted by the caller. -/
inductive CompileOutcome where
  | ok : Program → CompileOutcome
  | panicSyntax : String → CompileOutcome
  | panicOther : CompileOutcome

/-- Modelled from the spec: outcome of the nested `vm.run()` — normal
completion, or a non-local transfer (panic) that leaves the VM in whatever
intermediate state the executed instructions produced; an
`uncatchableException` panic carries an error, any other panic does not. -/
inductive RunOutcome where
  | normal : VM → RunOutcome
  | panicUncatchable : String → VM → RunOutcome
  | panicOther : VM → RunOutcome

/-- Modelled from the spec: the external collaborators `eval` consumes — the
parser (`parser.ParseFile`, a syntax-error message on failure), the compiler
(second argument is the "bind to the global receiver" flag), and the VM run
loop. -/
structure Externals where
  parseErr : String → Option String
  compileFn : String → Bool → CompileOutcome
  run : VM → RunOutcome

/-- Modelled from the spec: `vm.pushCtx()` saves the context that nested
evaluation must restore. -/
def pushCtx (vm : VM) : VM :=
  { vm with ctxStack := ⟨vm.prg, vm.pc, vm.sb, vm.args, vm.result⟩ :: vm.ctxStack }

/-- Modelled from the spec: `vm.popCtx()` restores the most recently saved
context. -/
def popCtx (vm : VM) : VM :=
  match vm.ctxStack with
  | [] => vm
  | c :: rest =>
    { vm with
      prg := c.prg
      pc := c.pc
      sb := c.sb
      args := c.args
      result := c.result
      ctxStack := rest }

/-- `vm.push(v)`: writes at the stack pointer and increments it. -/
def pushVal (vm : VM) (v : Option Value) : VM :=
  { vm with
    stack := fun i => if i = vm.sp then v else vm.stack i
    sp := vm.sp + 1 }

/-- The `this` binding computed by `Debugger.eval`: the receiver at the
stack base when one exists, else the global object. -/
def evalThis (vm0 : VM) : Option Value :=
  if 0 ≤ vm0.sb then vm0.stack vm0.sb.toNat else some vm0.globalObject

/-- The VM-state writes `Debugger.eval` performs between `pushCtx` and
`vm.run()`: install the fresh program, reset pc, argument count and result,
rebase the stack and push the receiver. -/
def evalSetup (vm0 : VM) (p : Program) : VM :=
  pushVal
    { pushCtx vm0 with
      prg := p
      pc := 0
      args := 0
      result := some Value.undefined
      sb := (vm0.sp : Int) }
    (evalThis vm0)

/-- The restore sequence `Debugger.eval` performs after a normal `vm.run()`:
`popCtx`, clear the halt flag, pop the pushed receiver. -/
def evalFinish (vm4 : VM) : VM :=
  { popCtx vm4 with halt := false, sp := (popCtx vm4).sp - 1 }

/-- `Debugger.eval` (it touches only `dbg.vm`).  Two Go subtleties are kept
faithfully: (1) the two deferred `recover` blocks assign the local variable
`err`, but `eval` has unnamed result parameters, so a recovered panic makes
the function return the zero values (nil value, nil error); (2) the context
restore (`popCtx`, `halt = false`, `sp -= 1`) sits after `vm.run()` on the
straight-line path only, so a panic inside `vm.run()` skips it and leaves
the VM in the intermediate state carried by the panic.  A panic inside
`c.compile` happens before `pushCtx`, so there the VM is untouched. -/
def eval (ext : Externals) (vm0 : VM) (expr : String) :
    (Option Value × Option String) × VM :=
  match ext.parseErr expr with
  | some msg => ((none, some msg), vm0)
  | none =>
    match ext.compileFn expr (decide (evalThis vm0 = some vm0.globalObject)) with
    | CompileOutcome.panicSyntax _ => ((none, none), vm0)
    | CompileOutcome.panicOther => ((none, none), vm0)
    | CompileOutcome.ok p =>
      match ext.run (evalSetup vm0 p) with
      | RunOutcome.normal vm4 => ((vm4.result, none), evalFinish vm4)
      | RunOutcome.panicUncatchable _ vmMid => ((none, none), vmMid)
      | RunOutcome.panicOther vmMid => ((none, none), vmMid)

/-- The expression-evaluation command. -/
structure ExecCommand where
  expression : String

/-- `ExecCommand.execute`: rejects an empty expression before any evaluation,
otherwise brackets `eval` with the `debuggerExec` flag and records the line
history afterwards. -/
def ExecCommand.execute (ext : Externals) (e : ExecCommand) (d : Debugger) :
    Result × Debugger :=
  if e.expression = "" then (⟨none, some "nothing to execute"⟩, d)
  else
    let d1 := { d with debuggerExec := true }
    let r := eval ext d1.vm e.expression
    let d2 := { d1 with vm := r.2, debuggerExec := false }
    (⟨r.1.1, r.1.2⟩, d2.updateLastLine d2.Line)

/-- `Debugger.Exec`. -/
def Debugger.Exec (ext : Externals) (d : Debugger) (expr : String) :
    Result × Debugger :=
  ExecCommand.execute ext ⟨expr⟩ d

/-- The scan inside `Debugger.getNextLine`: starting at offset `off`, examine
`n` consecutive offsets; return the first line strictly above `curLine`,
else 0. -/
def scanNext (posAt : Nat → Pos) (curLine : Int) : Nat → Nat → Int
  | _, 0 => 0
  | off, n + 1 =>
    let nextLine := (posAt off).line
    if nextLine > curLine then nextLine
    else scanNext posAt curLine (off + 1) n

/-- `Debugger.getNextLine`: the Go loop ranges over `code[pc:]` — that is,
`len(code) - pc` iterations — and examines offset `pc + idx + 1` in each, so
the offsets consulted are `pc+1 .. len(code)` inclusive (the position table,
not the instruction list, is consulted at the final offset). -/
def Debugger.getNextLine (d : Debugger) : Int :=
  scanNext d.vm.prg.posAt d.Line (d.vm.pc + 1) (d.vm.prg.code.length - d.vm.pc)

/-- A well-behaved nested run, for the amended restoration theorem: it
completes normally (no panic), is stack-balanced (leaves `sp` where it was on
entry), leaves the saved-context stack alone, and does not write stack slots
below its entry stack pointer. -/
def RunWellBehaved (run : VM → RunOutcome) : Prop :=
  ∀ vmIn, ∃ vmOut, run vmIn = RunOutcome.normal vmOut ∧ vmOut.sp = vmIn.sp ∧
    vmOut.ctxStack = vmIn.ctxStack ∧ ∀ i, i < vmIn.sp → vmOut.stack i = vmIn.stack i

/-- An empty program whose every offset maps to line 1 of main.js. -/
def progEmpty : Program :=
  ⟨[], fun _ => ⟨"main.js", 1⟩⟩

/-- Three plain instructions; offsets 0 and 1 map to line 1, offsets 2 and
beyond (including one past the end) map to line 7. -/
def progLines : Program :=
  ⟨[Instr.basic, Instr.basic, Instr.basic],
   fun n => if n < 2 then ⟨"main.js", 1⟩ else ⟨"main.js", 7⟩⟩

/-- A minimal VM paused at the start of the empty program. -/
def vmBase : VM :=
  { prg := progEmpty
    pc := 0
    stack := fun _ => none
    sp := 0
    sb := -1
    args := 0
    result := none
    halt := false
    stash := []
    globalObject := Value.obj 0
    globalProps := fun _ => none
    ctxStack := [] }

/-- A fresh debugger session on `vmBase` (line history starts at the 0
sentinel, as in `NewDebugger`); its gate is open. -/
def dbgBase : Debugger :=
  { vm := vmBase
    lastDebuggerCmdAndArgs := []
    debuggerExec := false
    currentLine := 0
    lastLines := [0]
    breakpoints := none
    chClosed := false }

/-- The same session after its gate has been released. -/
def dbgClosedGate : Debugger :=
  { dbgBase with chClosed := true }

/-- A VM paused mid-program: pc 5, three stack slots in use, frame base 0. -/
def vmPaused : VM :=
  { vmBase with
    prg := progLines
    pc := 5
    sp := 3
    sb := 0
    stack := fun _ => some Value.undefined }

/-- Externals whose run loop completes normally without touching the VM. -/
def extNormal : Externals :=
  { parseErr := fun _ => none
    compileFn := fun _ _ => CompileOutcome.ok progLines
    run := fun v => RunOutcome.normal v }

/-- Externals whose run loop panics immediately (leaving the VM exactly as
`eval` set it up for the nested program: pc 0, rebased stack). -/
def extPanic : Externals :=
  { parseErr := fun _ => none
    compileFn := fun _ _ => CompileOutcome.ok progLines
    run := fun v => RunOutcome.panicOther v }

/-- A session paused at offset 0 of `progLines`, for the next-line scan. -/
def dbgC8 : Debugger :=
  { dbgBase with vm := { vmBase with prg := progLines } }

theorem removeFirst_of_not_mem {l : List Breakpoint} {b : Breakpoint}
    (h : b ∉ l) : removeFirst l b = none := by
  induction l with
  | nil => rfl
  | cons x xs ih =>
    have hx : x ≠ b := fun he => h (he ▸ List.mem_cons_self x xs)
    have hxs : b ∉ xs := fun hm => h (List.mem_cons_of_mem x hm)
    rw [removeFirst, if_neg hx, ih hxs]

theorem removeFirst_of_mem {l : List Breakpoint} {b : Breakpoint}
    (h : b ∈ l) :
    ∃ l₁ l₂, l = l₁ ++ b :: l₂ ∧ b ∉ l₁ ∧ removeFirst l b = some (l₁ ++ l₂) := by
  induction l with
  | nil => cases h
  | cons x xs ih =>
    by_cases hx : x = b
    · refine ⟨[], xs, by simp [hx], by simp, ?_⟩
      rw [removeFirst, if_pos hx]
      rfl
    · have hxs : b ∈ xs := by
        cases List.mem_cons.mp h with
        | inl h1 => exact absurd h1.symm hx
        | inr h2 => exact h2
      obtain ⟨l₁, l₂, heq, hnm, hrf⟩ := ih hxs
      refine ⟨x :: l₁, l₂, by rw [heq]; rfl, ?_, ?_⟩
      · intro hmem
        cases List.mem_cons.mp hmem with
        | inl h1 => exact hx h1.symm
        | inr h2 => exact hnm h2
      · rw [removeFirst, if_neg hx, hrf]
        rfl

theorem removeFirst_append {l : List Breakpoint} {b : Breakpoint}
    (h : b ∉ l) : removeFirst (l ++ [b]) b = some l := by
  induction l with
  | nil => simp [removeFirst]
  | cons x xs ih =>
    have hx : x ≠ b := fun he => h (he ▸ List.mem_cons_self x xs)
    have hxs : b ∉ xs := fun hm => h (List.mem_cons_of_mem x hm)
    rw [List.cons_append, removeFirst, if_neg hx, ih hxs]

/-- Claim C4: setting a breakpoint whose (filename, line) pair is already
registered fails with the duplicate error "breakpoint exists" and leaves the
registry exactly unchanged; with no exactly matching pair the insert succeeds
and appends the breakpoint. -/
theorem setBreakpoint_spec (bps : GoSlice Breakpoint) (fileName : String) (line : Int) :
    ((⟨fileName, line⟩ : Breakpoint) ∈ goElems bps →
      SetBreakpoint bps fileName line = (some "breakpoint exists", bps)) ∧
    ((⟨fileName, line⟩ : Breakpoint) ∉ goElems bps →
      SetBreakpoint bps fileName line =
        (none, some (goElems bps ++ [⟨fileName, line⟩]))) := by
  constructor <;> intro h <;> simp [SetBreakpoint, h]

/-- Claim C4 witness: the duplicate branch at a concrete registry. -/
theorem setBreakpoint_spec_witness :
    SetBreakpoint (some [⟨"a.js", 1⟩]) "a.js" 1 =
      (some "breakpoint exists", some [⟨"a.js", 1⟩]) :=
  (setBreakpoint_spec (some [⟨"a.js", 1⟩]) "a.js" 1).1 (by decide)

/-- Claim C5: clearing on a registry of length zero fails with
"no breakpoints set" and leaves the registry unchanged; clearing an
unregistered pair fails with the not-found error (its message reads "cannot
set breakpoints" in the source) and leaves the registry unchanged; clearing a
registered pair removes exactly the first matching entry, and when the pair
occurs at most once (the invariant `SetBreakpoint` maintains) it is absent
from a subsequent `Breakpoints` listing, which succeeds on the resulting
non-nil slice. -/
theorem clearBreakpoint_spec (bps : GoSlice Breakpoint) (fileName : String) (line : Int) :
    (goLen bps = 0 →
      ClearBreakpoint bps fileName line = (some "no breakpoints set", bps)) ∧
    (goLen bps ≠ 0 → (⟨fileName, line⟩ : Breakpoint) ∉ goElems bps →
      ClearBreakpoint bps fileName line = (some "cannot set breakpoints", bps)) ∧
    ((⟨fileName, line⟩ : Breakpoint) ∈ goElems bps →
      (goElems bps).count ⟨fileName, line⟩ ≤ 1 →
      ∃ l₁ l₂, goElems bps = l₁ ++ ⟨fileName, line⟩ :: l₂ ∧
        ClearBreakpoint bps fileName line = (none, some (l₁ ++ l₂)) ∧
        (⟨fileName, line⟩ : Breakpoint) ∉ l₁ ++ l₂ ∧
        Breakpoints (some (l₁ ++ l₂)) = Except.ok (l₁ ++ l₂)) := by
  refine ⟨?_, ?_, ?_⟩
  · intro h
    rw [ClearBreakpoint, if_pos h]
  · intro h hnm
    rw [ClearBreakpoint, if_neg h, removeFirst_of_not_mem hnm]
  · intro hm hcnt
    obtain ⟨l₁, l₂, heq, hnm₁, hrf⟩ := removeFirst_of_mem hm
    have hlen : goLen bps ≠ 0 := by
      intro h0
      rw [goLen, List.length_eq_zero] at h0
      rw [h0] at hm
      cases hm
    have hnm₂ : (⟨fileName, line⟩ : Breakpoint) ∉ l₂ := by
      intro hm₂
      rw [heq, List.count_append, List.count_cons_self] at hcnt
      have : 1 ≤ l₂.count (⟨fileName, line⟩ : Breakpoint) :=
        List.one_le_count_iff.mpr hm₂
      omega
    refine ⟨l₁, l₂, heq, ?_, ?_, rfl⟩
    · rw [ClearBreakpoint, if_neg hlen, hrf]
    · intro hmm
      cases List.mem_append.mp hmm with
      | inl h1 => exact hnm₁ h1
      | inr h2 => exact hnm₂ h2

/-- Claim C5 witness: the empty-registry branch and the unregistered-pair
branch at concrete registries. -/
theorem clearBreakpoint_spec_witness :
    ClearBreakpoint none "a.js" 1 = (some "no breakpoints set", none) ∧
    ClearBreakpoint (some [⟨"a.js", 1⟩]) "b.js" 2 =
      (some "cannot set breakpoints", some [⟨"a.js", 1⟩]) :=
  ⟨(clearBreakpoint_spec none "a.js" 1).1 (by decide),
   (clearBreakpoint_spec (some [⟨"a.js", 1⟩]) "b.js" 2).2.1 (by decide) (by decide)⟩

/-- Claim C2 counterexample: set one breakpoint and clear it again; the
registry now holds zero breakpoints, yet `Breakpoints` succeeds with a
zero-length list instead of returning an error, because the source tests the
slice against nil rather than testing its length, and clearing leaves an
empty non-nil slice. -/
theorem breakpoints_after_clear_cex :
    goLen (ClearBreakpoint (SetBreakpoint none "a.js" 1).2 "a.js" 1).2 = 0 ∧
    Breakpoints (ClearBreakpoint (SetBreakpoint none "a.js" 1).2 "a.js" 1).2 =
      Except.ok [] :=
  ⟨rfl, rfl⟩

/-- Claim C2 (amended): `Breakpoints` fails exactly on the nil registry — the
state before any breakpoint was ever successfully set; any non-nil registry,
including an empty one left behind by clearing every breakpoint, is returned
as a success, so a zero-length success list is possible. -/
theorem breakpoints_nil_iff :
    Breakpoints (none : GoSlice Breakpoint) = Except.error "no breakpoints" ∧
    ∀ l : List Breakpoint, Breakpoints (some l) = Except.ok l :=
  ⟨rfl, fun _ => rfl⟩

/-- Claim C10: when (filename, line) is not registered, `SetBreakpoint`
followed by `ClearBreakpoint` of the same pair both succeed, and the
resulting registry holds exactly the original breakpoints in the original
order. -/
theorem set_clear_roundtrip (bps : GoSlice Breakpoint) (fileName : String) (line : Int)
    (h : (⟨fileName, line⟩ : Breakpoint) ∉ goElems bps) :
    (SetBreakpoint bps fileName line).1 = none ∧
    ClearBreakpoint (SetBreakpoint bps fileName line).2 fileName line =
      (none, some (goElems bps)) ∧
    goElems (ClearBreakpoint (SetBreakpoint bps fileName line).2 fileName line).2 =
      goElems bps := by
  have hset : SetBreakpoint bps fileName line =
      (none, some (goElems bps ++ [⟨fileName, line⟩])) := by
    simp [SetBreakpoint, h]
  have hclear :
      ClearBreakpoint (some (goElems bps ++ [⟨fileName, line⟩])) fileName line =
        (none, some (goElems bps)) := by
    have hlen : goLen (some (goElems bps ++ [⟨fileName, line⟩])) ≠ 0 := by
      simp [goLen, goElems]
    rw [ClearBreakpoint, if_neg hlen]
    have : goElems (some (goElems bps ++ [⟨fileName, line⟩])) =
        goElems bps ++ [⟨fileName, line⟩] := rfl
    rw [this, removeFirst_append h]
  refine ⟨by rw [hset], by rw [hset]; exact hclear, ?_⟩
  rw [hset, hclear]
  rfl

/-- Claim C10 witness: round trip at a concrete one-element registry. -/
theorem set_clear_roundtrip_witness :
    ClearBreakpoint (SetBreakpoint (some [⟨"b.js", 2⟩]) "a.js" 1).2 "a.js" 1 =
      (none, some [⟨"b.js", 2⟩]) :=
  (set_clear_roundtrip (some [⟨"b.js", 2⟩]) "a.js" 1 (by decide)).2.1

theorem updateCurrentLine_chClosed (d : Debugger) :
    (d.updateCurrentLine).chClosed = d.chClosed := rfl

theorem updateLastLine_chClosed (d : Debugger) (n : Int) :
    (d.updateLastLine n).chClosed = d.chClosed := by
  rw [Debugger.updateLastLine]
  split
  · split <;> rfl
  · rfl

theorem stepVM_chClosed (d : Debugger) :
    (stepVM d).chClosed = d.chClosed := by
  rw [stepVM]
  cases d.vm.prg.code.get? d.vm.pc with
  | none => rfl
  | some i => rfl

theorem continueLoop_chClosed (lastLine : Int) (fuel : Nat) (d : Debugger) :
    (continueLoop lastLine fuel d).2.chClosed = d.chClosed := by
  induction fuel generalizing d with
  | zero => rfl
  | succ k ih =>
    rw [continueLoop]
    by_cases hc : (d.isSafeToRun && !d.isDebuggerStatement) = true
    · rw [if_pos hc]
      by_cases hb : d.isBreakpoint = true
      · rw [if_pos hb]
        simp only [updateLastLine_chClosed, updateCurrentLine_chClosed]
      · rw [if_neg hb, ih]
        simp only [updateCurrentLine_chClosed, stepVM_chClosed]
    · rw [if_neg hc]
      simp only [updateLastLine_chClosed]

theorem continueExecute_chClosed (fuel : Nat) (d : Debugger) :
    (ContinueCommand.execute ⟨⟩ fuel d).2.chClosed = d.chClosed := by
  rw [ContinueCommand.execute, continueLoop_chClosed, updateCurrentLine_chClosed]

/-- Claim C3 (amended): a single `Continue` on an open gate releases it
exactly once (the command body never touches the gate, and the deferred close
releases it); but a second `Continue` issued after the gate is already
released does attempt to release it again, and closing the already-closed
channel is a fatal runtime panic of the release primitive, not a silent
no-op. -/
theorem continue_gate (fuel : Nat) (d : Debugger) :
    (d.chClosed = false →
      ∃ r d', Debugger.Continue fuel d = Except.ok (r, d') ∧ d'.chClosed = true) ∧
    (d.chClosed = true →
      Debugger.Continue fuel d = Except.error "close of closed channel") := by
  have h := continueExecute_chClosed fuel d
  constructor
  · intro h0
    refine ⟨(ContinueCommand.execute ⟨⟩ fuel d).1,
      { (ContinueCommand.execute ⟨⟩ fuel d).2 with chClosed := true }, ?_, rfl⟩
    rw [Debugger.Continue]
    simp only [h, h0, Bool.false_eq_true, if_false]
  · intro h1
    rw [Debugger.Continue]
    simp only [h, h1, if_true]

/-- Claim C3 witness: on the fresh session the first `Continue` returns
normally with the gate released. -/
theorem continue_gate_witness :
    ∃ r d', Debugger.Continue 1 dbgBase = Except.ok (r, d') ∧ d'.chClosed = true :=
  (continue_gate 1 dbgBase).1 rfl

/-- Claim C3 counterexample: on a session whose gate is already released, a
second `Continue` call does attempt to release it again and the release
primitive fails fatally (Go panics closing a closed channel), contradicting
the claim that it does not attempt the release and is not a fatal failure. -/
theorem continue_double_release_cex :
    Debugger.Continue 1 dbgClosedGate = Except.error "close of closed channel" :=
  rfl

/-- Claim C6: `Exec` with the empty expression fails fast with the usage
error "nothing to execute" for every debugger state and every behavior of the
external parser, compiler and run loop — so nothing is parsed, compiled or
run — and the debugger (in particular the VM program counter) is exactly
unchanged. -/
theorem exec_empty_spec (ext : Externals) (d : Debugger) :
    Debugger.Exec ext d "" = (⟨none, some "nothing to execute"⟩, d) ∧
    (Debugger.Exec ext d "").2.vm.pc = d.vm.pc :=
  ⟨rfl, rfl⟩

/-- Claim C7: `StepIn` and `StepOut` always return the error
"not implemented yet" with no value, and return the session state exactly as
given — no cursor field (currentLine, lastLines, breakpoints) and no VM field
is mutated. -/
theorem stepInOut_unimplemented (cin : StepInCommand) (cout : StepOutCommand) (d : Debugger) :
    (cin.execute d).1 = ⟨none, some "not implemented yet"⟩ ∧
    (cin.execute d).2 = d ∧
    (cout.execute d).1 = ⟨none, some "not implemented yet"⟩ ∧
    (cout.execute d).2 = d :=
  ⟨rfl, rfl, rfl, rfl⟩

/-- Claim C9: when the name is bound in no lexical scope, the frame-receiver
tier yields no value (stack base negative, or a nil receiver slot), and the
global object has no such property, `getValue` returns the non-absent
`valueUnresolved` placeholder carrying the name, paired with the diagnostic
error "cannot resolve variable" — never an absent value without a
diagnostic. -/
theorem getValue_unresolved (d : Debugger) (varName : String)
    (h1 : stashLookup d.vm.stash varName = none)
    (h2 : (if 0 ≤ d.vm.sb then d.vm.stack d.vm.sb.toNat else none) = none)
    (h3 : d.vm.globalProps varName = none) :
    d.getValue varName =
      (some (Value.unresolved varName), some "cannot resolve variable") ∧
    (d.getValue varName).1 ≠ none := by
  have : d.getValue varName =
      (some (Value.unresolved varName), some "cannot resolve variable") := by
    rw [Debugger.getValue, h1, h2, h3]
  exact ⟨this, by rw [this]; simp⟩

/-- Claim C9 witness: resolution of an absent name on the concrete fresh
session (empty scope chain, no frame, empty global object). -/
theorem getValue_unresolved_witness :
    dbgBase.getValue "missing" =
      (some (Value.unresolved "missing"), some "cannot resolve variable") :=
  (getValue_unresolved dbgBase "missing" rfl rfl rfl).1

theorem popCtx_eq (vm : VM) (c : EvalCtx) (rest : List EvalCtx)
    (h : vm.ctxStack = c :: rest) :
    popCtx vm =
      { vm with
        prg := c.prg
        pc := c.pc
        sb := c.sb
        args := c.args
        result := c.result
        ctxStack := rest } := by
  rw [popCtx, h]

theorem evalSetup_sp (vm0 : VM) (p : Program) :
    (evalSetup vm0 p).sp = vm0.sp + 1 := rfl

theorem evalSetup_ctxStack (vm0 : VM) (p : Program) :
    (evalSetup vm0 p).ctxStack =
      (⟨vm0.prg, vm0.pc, vm0.sb, vm0.args, vm0.result⟩ : EvalCtx) :: vm0.ctxStack := rfl

theorem evalSetup_stack (vm0 : VM) (p : Program) (i : Nat) (h : i ≠ vm0.sp) :
    (evalSetup vm0 p).stack i = vm0.stack i := by
  simp only [evalSetup, pushVal]
  rw [show (pushCtx vm0).sp = vm0.sp from rfl, if_neg h]
  rfl

theorem eval_eq_parse_err (ext : Externals) (vm0 : VM) (expr msg : String)
    (hp : ext.parseErr expr = some msg) :
    eval ext vm0 expr = ((none, some msg), vm0) := by
  unfold eval
  rw [hp]

theorem eval_eq_compile_synerr (ext : Externals) (vm0 : VM) (expr msg : String)
    (hp : ext.parseErr expr = none)
    (hc : ext.compileFn expr (decide (evalThis vm0 = some vm0.globalObject)) =
      CompileOutcome.panicSyntax msg) :
    eval ext vm0 expr = ((none, none), vm0) := by
  unfold eval
  rw [hp]
  dsimp only
  rw [hc]

theorem eval_eq_compile_other (ext : Externals) (vm0 : VM) (expr : String)
    (hp : ext.parseErr expr = none)
    (hc : ext.compileFn expr (decide (evalThis vm0 = some vm0.globalObject)) =
      CompileOutcome.panicOther) :
    eval ext vm0 expr = ((none, none), vm0) := by
  unfold eval
  rw [hp]
  dsimp only
  rw [hc]

theorem eval_eq_normal (ext : Externals) (vm0 : VM) (expr : String)
    (p : Program) (vm4 : VM)
    (hp : ext.parseErr expr = none)
    (hc : ext.compileFn expr (decide (evalThis vm0 = some vm0.globalObject)) =
      CompileOutcome.ok p)
    (hr : ext.run (evalSetup vm0 p) = RunOutcome.normal vm4) :
    eval ext vm0 expr = ((vm4.result, none), evalFinish vm4) := by
  unfold eval
  rw [hp]
  dsimp only
  rw [hc]
  dsimp only
  rw [hr]

/-- Claim C1 (amended): on every exit path of `eval` on which the nested
`vm.run()` does not panic — success, a parse `SyntaxError`, or a panic inside
compilation (which occurs before any VM mutation) — the paused VM's program
counter, stack pointer, stack base, halt flag, active program and frame
receiver slot are exactly their pre-eval values, given a paused VM (halt
clear, receiver below the stack pointer) and a run loop that completes
normally, stack-balanced, without touching the saved-context stack or the
slots below its entry stack pointer.  The restoration does NOT happen on the
exit path where `vm.run()` itself panics (see the counterexample), which the
claim as stated also covers. -/
theorem eval_restores (ext : Externals) (vm0 : VM) (expr : String)
    (hwb : RunWellBehaved ext.run) (hhalt : vm0.halt = false) :
    (eval ext vm0 expr).2.pc = vm0.pc ∧
    (eval ext vm0 expr).2.sp = vm0.sp ∧
    (eval ext vm0 expr).2.sb = vm0.sb ∧
    (eval ext vm0 expr).2.halt = vm0.halt ∧
    (eval ext vm0 expr).2.prg = vm0.prg ∧
    (0 ≤ vm0.sb → vm0.sb.toNat < vm0.sp →
      (eval ext vm0 expr).2.stack vm0.sb.toNat = vm0.stack vm0.sb.toNat) := by
  cases hp : ext.parseErr expr with
  | some msg =>
    rw [eval_eq_parse_err ext vm0 expr msg hp]
    exact ⟨rfl, rfl, rfl, rfl, rfl, fun _ _ => rfl⟩
  | none =>
    cases hc : ext.compileFn expr (decide (evalThis vm0 = some vm0.globalObject)) with
    | panicSyntax msg =>
      rw [eval_eq_compile_synerr ext vm0 expr msg hp hc]
      exact ⟨rfl, rfl, rfl, rfl, rfl, fun _ _ => rfl⟩
    | panicOther =>
      rw [eval_eq_compile_other ext vm0 expr hp hc]
      exact ⟨rfl, rfl, rfl, rfl, rfl, fun _ _ => rfl⟩
    | ok p =>
      obtain ⟨vm4, hrun, hsp, hctx, hstk⟩ := hwb (evalSetup vm0 p)
      rw [eval_eq_normal ext vm0 expr p vm4 hp hc hrun]
      have hctx' : vm4.ctxStack =
          (⟨vm0.prg, vm0.pc, vm0.sb, vm0.args, vm0.result⟩ : EvalCtx) :: vm0.ctxStack := by
        rw [hctx, evalSetup_ctxStack]
      have hpop := popCtx_eq vm4 _ _ hctx'
      have hsp4 : vm4.sp = vm0.sp + 1 := by rw [hsp, evalSetup_sp]
      refine ⟨?_, ?_, ?_, ?_, ?_, ?_⟩
      · simp only [evalFinish, hpop]
      · simp only [evalFinish, hpop]
        omega
      · simp only [evalFinish, hpop]
      · simp only [evalFinish, hpop, hhalt]
      · simp only [evalFinish, hpop]
      · intro hsb hlt
        have h1 : (evalFinish vm4).stack vm0.sb.toNat = vm4.stack vm0.sb.toNat := by
          simp only [evalFinish, hpop]
        rw [h1, hstk vm0.sb.toNat (by rw [evalSetup_sp]; omega),
          evalSetup_stack vm0 p vm0.sb.toNat (by omega)]

/-- Claim C1 witness: a normally completing nested run on the concretely
paused VM leaves the program counter exactly where it was. -/
theorem eval_restores_witness :
    (eval extNormal vmPaused "1+1").2.pc = vmPaused.pc :=
  (eval_restores extNormal vmPaused "1+1"
    (fun vmIn => ⟨vmIn, rfl, rfl, rfl, fun _ _ => rfl⟩) rfl).1

/-- Claim C1 counterexample: an internal panic during execution of the
expression (here: a run loop that panics immediately, before mutating
anything beyond what `eval` itself set up) is an exit path the claim covers,
yet the VM is left with the nested evaluation's program counter 0 instead of
the paused frame's 5 — the recover after `vm.run()` skips `popCtx`, the halt
reset and the stack-pointer restore — and, because `eval` has unnamed result
parameters, the recovered panic is not even converted into a returned
error. -/
theorem eval_panic_not_restored_cex :
    (eval extPanic vmPaused "x").2.pc = 0 ∧
    vmPaused.pc = 5 ∧
    (eval extPanic vmPaused "x").2.pc ≠ vmPaused.pc ∧
    (eval extPanic vmPaused "x").1.2 = none :=
  ⟨rfl, rfl, by decide, rfl⟩

theorem scanNext_succ (posAt : Nat → Pos) (curLine : Int) (off n : Nat) :
    scanNext posAt curLine off (n + 1) =
      if (posAt off).line > curLine then (posAt off).line
      else scanNext posAt curLine (off + 1) n := rfl

theorem scanNext_char (posAt : Nat → Pos) (c : Int) :
    ∀ n off : Nat,
      (scanNext posAt c off n = 0 ∧
        ∀ j, off ≤ j → j < off + n → (posAt j).line ≤ c) ∨
      (∃ j, off ≤ j ∧ j < off + n ∧ c < (posAt j).line ∧
        scanNext posAt c off n = (posAt j).line ∧
        ∀ k, off ≤ k → k < j → (posAt k).line ≤ c) := by
  intro n
  induction n with
  | zero =>
    intro off
    left
    exact ⟨rfl, fun j h1 h2 => absurd h2 (by omega)⟩
  | succ m ih =>
    intro off
    by_cases hgt : (posAt off).line > c
    · right
      refine ⟨off, Nat.le_refl off, by omega, hgt, ?_, ?_⟩
      · rw [scanNext_succ, if_pos hgt]
      · intro k h1 h2
        exact absurd h2 (by omega)
    · cases ih (off + 1) with
      | inl hl =>
        left
        refine ⟨?_, ?_⟩
        · rw [scanNext_succ, if_neg hgt]
          exact hl.1
        · intro j h1 h2
          rcases Nat.eq_or_lt_of_le h1 with heq | hlt
          · exact heq ▸ le_of_not_lt hgt
          · exact hl.2 j (by omega) (by omega)
      | inr hr =>
        obtain ⟨j, hj1, hj2, hj3, hj4, hj5⟩ := hr
        right
        refine ⟨j, by omega, by omega, hj3, ?_, ?_⟩
        · rw [scanNext_succ, if_neg hgt]
          exact hj4
        · intro k hk1 hk2
          rcases Nat.eq_or_lt_of_le hk1 with heq | hlt
          · exact heq ▸ le_of_not_lt hgt
          · exact hj5 k (by omega) hk2

theorem getNextLine_eq (d : Debugger) :
    d.getNextLine =
      scanNext d.vm.prg.posAt d.Line (d.vm.pc + 1)
        (d.vm.prg.code.length - d.vm.pc) := rfl

/-- Claim C8: for a program counter inside the program, `getNextLine` returns
the line of the first in-program offset after `pc` whose line strictly
exceeds the line at `pc`, and returns 0 when no such offset exists; it never
fails (the model is total, as the underlying position search is) and never
reads the instruction list past the end — the loop does additionally consult
the position table at the offset one past the last instruction, but under the
table's plateau property (the position one past the end equals the position
of the last instruction, as the underlying `sourceOffset` search guarantees)
that extra probe can never be the first strictly greater line, so the result
is exactly the claimed in-program scan. -/
theorem getNextLine_spec (d : Debugger)
    (hpc : d.vm.pc < d.vm.prg.code.length)
    (hplat : d.vm.prg.posAt d.vm.prg.code.length =
      d.vm.prg.posAt (d.vm.prg.code.length - 1)) :
    (d.getNextLine = 0 ∧
      ∀ j, d.vm.pc < j → j < d.vm.prg.code.length →
        (d.vm.prg.posAt j).line ≤ d.Line) ∨
    (∃ j, d.vm.pc < j ∧ j < d.vm.prg.code.length ∧
      d.Line < (d.vm.prg.posAt j).line ∧
      d.getNextLine = (d.vm.prg.posAt j).line ∧
      ∀ k, d.vm.pc < k → k < j → (d.vm.prg.posAt k).line ≤ d.Line) := by
  have hchar := scanNext_char d.vm.prg.posAt d.Line
    (d.vm.prg.code.length - d.vm.pc) (d.vm.pc + 1)
  rw [← getNextLine_eq] at hchar
  cases hchar with
  | inl hl =>
    left
    refine ⟨hl.1, fun j h1 h2 => hl.2 j (by omega) (by omega)⟩
  | inr hr =>
    obtain ⟨j, hj1, hj2, hj3, hj4, hj5⟩ := hr
    right
    have hjle : j ≤ d.vm.prg.code.length := by omega
    have hjlt : j < d.vm.prg.code.length := by
      rcases Nat.lt_or_ge j d.vm.prg.code.length with h | h
      · exact h
      · exfalso
        have hje : j = d.vm.prg.code.length := by omega
        rcases Nat.lt_or_ge (d.vm.pc + 1) d.vm.prg.code.length with hcase | hcase
        · have hk := hj5 (d.vm.prg.code.length - 1) (by omega) (by omega)
          rw [hje, hplat] at hj3
          omega
        · have hpcx : d.vm.pc = d.vm.prg.code.length - 1 := by omega
          rw [hje, hplat, ← hpcx] at hj3
          exact absurd hj3 (lt_irrefl _)
    exact ⟨j, by omega, hjlt, hj3, hj4, fun k h1 h2 => hj5 k (by omega) h2⟩

/-- Claim C8 witness: on `progLines` at pc 0 (line 1), the scan finds offset
2 as the first strictly greater line (7); the plateau hypothesis holds for
the concrete table. -/
theorem getNextLine_spec_witness :
    (dbgC8.getNextLine = 0 ∧
      ∀ j, dbgC8.vm.pc < j → j < dbgC8.vm.prg.code.length →
        (dbgC8.vm.prg.posAt j).line ≤ dbgC8.Line) ∨
    (∃ j, dbgC8.vm.pc < j ∧ j < dbgC8.vm.prg.code.length ∧
      dbgC8.Line < (dbgC8.vm.prg.posAt j).line ∧
      dbgC8.getNextLine = (dbgC8.vm.prg.posAt j).line ∧
      ∀ k, dbgC8.vm.pc < k → k < j → (dbgC8.vm.prg.posAt k).line ≤ dbgC8.Line) :=
  getNextLine_spec dbgC8 (by decide) (by decide)

end Goja
